import Mathlib

/-! # Course Reverse Search — embedding and verification

A shallow embedding of the Course Reverse Search application: the input
validator shared by the client scripts (`useRegex` in `script.js`) and the
server (`courseRegex` in `server.js`), the `POST /search` route handler, and
the client-side `handleSubmit` error handling.  JS strings are modelled as
`String` / `List Char`; the database is modelled either as an oracle
function (for handler-level properties) or by the semantics of the single
SQL statement the server issues (for end-to-end properties).
-/

namespace CourseSearch

/-! ## JS character classes and string primitives -/

/-- The code points of the characters matched by `\s` in a JS regular
expression.  This same set is the WhiteSpace/LineTerminator set removed by
`String.prototype.trim`. -/
def jsWhitespaceCodes : List Nat :=
  [9, 10, 11, 12, 13, 32, 160, 5760, 8192, 8193, 8194, 8195, 8196, 8197,
   8198, 8199, 8200, 8201, 8202, 8232, 8233, 8239, 8287, 12288, 65279]

/-- The JS regex class `\s` (also the set trimmed by `trim()`). -/
def isJsWhitespace (c : Char) : Bool := decide (c.toNat ∈ jsWhitespaceCodes)

/-- The regex character class `[A-Za-z]`. -/
def isAsciiLetter (c : Char) : Bool :=
  decide ((65 ≤ c.toNat ∧ c.toNat ≤ 90) ∨ (97 ≤ c.toNat ∧ c.toNat ≤ 122))

/-- The regex character class `\d` = `[0-9]`. -/
def isAsciiDigit (c : Char) : Bool := decide (48 ≤ c.toNat ∧ c.toNat ≤ 57)

/-- The regex character class `[A-Za-z0-9]`. -/
def isAsciiAlnum (c : Char) : Bool := isAsciiLetter c || isAsciiDigit c

/-- JS `String.prototype.trim`: removes leading and trailing whitespace. -/
def jsTrim (cs : List Char) : List Char :=
  ((cs.dropWhile isJsWhitespace).reverse.dropWhile isJsWhitespace).reverse

/-- JS `String.prototype.toUpperCase`, restricted to the ASCII simple case
mapping: character-wise `Char.toUpper` (letters `a`–`z` map to `A`–`Z`, all
other characters unchanged).  The real JS call performs full Unicode case
conversion, which additionally maps non-ASCII letters (e.g. `ſ` ↦ `S`,
`ß` ↦ `SS`); that fuller mapping is `jsToUpperCaseFull` below, and on every
input the validator accepts the two agree
(`jsToUpperCaseFull_eq_of_accepted`). -/
def jsToUpperCase (cs : List Char) : List Char := cs.map Char.toUpper

/-- The full-Unicode case conversion performed by JS
`String.prototype.toUpperCase`, on the characters this development applies
it to: the ASCII simple mapping, extended with the Unicode mappings of the
non-ASCII letters exercised below — U+017F (`ſ`, LATIN SMALL LETTER LONG S)
↦ `S`, and U+00DF (`ß`) ↦ `SS` (a full case mapping may change the
length, so the result of one character is a list). -/
def jsUpperCharFull (c : Char) : List Char :=
  if c = 'ſ' then ['S']
  else if c = 'ß' then ['S', 'S']
  else [Char.toUpper c]

/-- JS `String.prototype.toUpperCase` with the full-Unicode character
mappings of `jsUpperCharFull`. -/
def jsToUpperCaseFull : List Char → List Char
  | [] => []
  | c :: cs => jsUpperCharFull c ++ jsToUpperCaseFull cs

/-! ## The validator

`server.js` line 153 and `script.js` (`useRegex`) both test the anchored
pattern `^[A-Za-z]{2,4}\s\d{1,4}[A-Za-z]?$` against the trimmed input.
Because the letter, whitespace and digit classes are pairwise disjoint, the
backtracking regex match is equivalent to taking maximal runs: 2–4 letters,
then exactly one `\s` character, then 1–4 digits, then an optional final
letter, and nothing else. -/

/-- The test `courseRegex.test`: the anchored pattern `^[A-Za-z]{2,4}\s\d{1,4}[A-Za-z]?$`.
The maximal run of letters must have length 2–4, the next character must be
a `\s` character, the following maximal run of digits must have length 1–4,
and what remains must be empty or a single letter. -/
def courseRegexTest (cs : List Char) : Bool :=
  decide (2 ≤ (cs.takeWhile isAsciiLetter).length ∧
      (cs.takeWhile isAsciiLetter).length ≤ 4) &&
    match cs.dropWhile isAsciiLetter with
    | [] => false
    | w :: rest2 =>
      isJsWhitespace w &&
        (decide (1 ≤ (rest2.takeWhile isAsciiDigit).length ∧
            (rest2.takeWhile isAsciiDigit).length ≤ 4) &&
          match rest2.dropWhile isAsciiDigit with
          | [] => true
          | [c] => isAsciiLetter c
          | _ :: _ :: _ => false)

/-- Function `useRegex` from `script.js` (the current client scripts): trim the raw
input, then test the anchored course-code pattern. -/
def useRegex (input : String) : Bool := courseRegexTest (jsTrim input.data)

/-- One starting position of the legacy pattern `[A-Za-z0-9]+ [A-Za-z0-9]+`:
a nonempty alphanumeric run, a literal space, then another alphanumeric
character.  (Alphanumerics and the space are disjoint, so the backtracking
match from a fixed position reduces to the maximal-run form.) -/
def looseMatchAt (cs : List Char) : Bool :=
  decide (1 ≤ (cs.takeWhile isAsciiAlnum).length) &&
    match cs.dropWhile isAsciiAlnum with
    | c1 :: c2 :: _ => c1 == ' ' && isAsciiAlnum c2
    | _ => false

/-- The test `regex.test` for the unanchored legacy pattern: some suffix of the input
begins a match. -/
def looseTest : List Char → Bool
  | [] => false
  | c :: rest => looseMatchAt (c :: rest) || looseTest rest

/-- Function `useRegex` from the legacy client script: tests the unanchored pattern
`/[A-Za-z0-9]+ [A-Za-z0-9]+/i` against the raw (untrimmed) input. -/
def useRegexLegacy (input : String) : Bool := looseTest input.data

/-! ## The `POST /search` handler (`server.js`)

The handler is a function of the parsed `courseCode` field (`none` models a
missing/undefined field) and of the database, abstracted as a function from
the SQL text and the bound parameter values to an outcome.  Besides the HTTP
response, the model records the queries issued and the server-side log
lines, so that frame and non-leakage properties can be stated. -/

/-- One row of a query result, as returned to the client. -/
structure ResultRow where
  degree_name : Option String
  certificate_name : Option String
deriving DecidableEq, Repr

/-- A query as received by the database driver: the SQL text and the values
bound to the positional placeholders. -/
structure SqlQuery where
  text : String
  params : List String
deriving DecidableEq, Repr

/-- Outcome of `pool.query`: the promise resolves with rows or rejects with
an error message. -/
inductive DbOutcome where
  | ok (rows : List ResultRow)
  | fail (message : String)
deriving DecidableEq, Repr

/-- A JSON response body sent by the handler, or the body-parser's own
error payload for requests rejected before the handler runs. -/
inductive RespBody where
  | error (message : String)
  | results (rows : List ResultRow)
  | middlewareError
deriving DecidableEq, Repr

/-- The observable effect of one request: HTTP status, response body, the
database queries issued, and the server-side log lines. -/
structure HandlerResult where
  status : Nat
  body : RespBody
  queries : List SqlQuery
  log : List String
deriving DecidableEq, Repr

/-- The SQL template literal from `server.js` lines 184–187. -/
def searchSql : String :=
  "SELECT degree_name, certificate_name\n       FROM course_qualifications\n       WHERE course_code = $1\n       ORDER BY degree_name"

def invalidCodeMsg : String := "Invalid course code format."

def noMatchMsg : String := "No degrees or certificates found for that course."

def dbFailMsg : String := "Database query failed."

/-- The value bound to `$1`: `courseCode.trim().toUpperCase()`. -/
def normalizeCourseCode (s : String) : String :=
  String.mk (jsToUpperCase (jsTrim s.data))

/-- The server-side acceptance check (`server.js` line 162): the request
passes the 400 guard iff `courseCode` is present and truthy and the trimmed
value matches `courseRegex`. -/
def serverAccepts : Option String → Bool
  | none => false
  | some s => !(s == "") && courseRegexTest (jsTrim s.data)

/-- The `POST /search` route handler from `server.js`. -/
def searchHandler (courseCode : Option String)
    (db : String → List String → DbOutcome) : HandlerResult :=
  match courseCode with
  | none => ⟨400, .error invalidCodeMsg, [], []⟩
  | some s =>
    if s == "" || !courseRegexTest (jsTrim s.data) then
      ⟨400, .error invalidCodeMsg, [], []⟩
    else
      match db searchSql [normalizeCourseCode s] with
      | .ok rows =>
        if rows.length == 0 then
          ⟨404, .error noMatchMsg, [⟨searchSql, [normalizeCourseCode s]⟩], []⟩
        else
          ⟨200, .results rows, [⟨searchSql, [normalizeCourseCode s]⟩], []⟩
      | .fail msg =>
        ⟨500, .error dbFailMsg, [⟨searchSql, [normalizeCourseCode s]⟩],
          ["Query error: " ++ msg]⟩

/-- The parsed form of an incoming request body. -/
inductive RequestBody where
  | malformed
  | parsed (courseCode : Option String)

/-- Modelled from the spec: the `express.json()` body-parsing middleware is
library code not present in this repository; per the spec (§7, §8), a
payload that is not valid JSON is rejected with HTTP 400 before the handler
runs, with the parser's own error body.  A successfully parsed body hands
its `courseCode` field to the handler. -/
def processSearchRequest (body : RequestBody)
    (db : String → List String → DbOutcome) : HandlerResult :=
  match body with
  | .malformed => ⟨400, .middlewareError, [], []⟩
  | .parsed cc => searchHandler cc db

/-! ## Semantics of the SQL statement

`searchSql` is executed by the external PostgreSQL/TimescaleDB server.  Its
semantics on a table: keep the rows whose `course_code` equals the bound
parameter, project the two selected columns, and order by `degree_name`
ascending (PostgreSQL sorts `NULL` last under the default `ASC`). -/

/-- One stored row of the `course_qualifications` table. -/
structure StoredRow where
  course_code : String
  degree_name : Option String
  certificate_name : Option String
deriving DecidableEq, Repr

/-- The projection `SELECT degree_name, certificate_name`. -/
def projectRow (r : StoredRow) : ResultRow := ⟨r.degree_name, r.certificate_name⟩

/-- Lexicographic comparison of strings by code point (text collation of
the stored values). -/
def charListLe : List Char → List Char → Bool
  | [], _ => true
  | _ :: _, [] => false
  | a :: as, b :: bs =>
    if a.toNat < b.toNat then true
    else if b.toNat < a.toNat then false
    else charListLe as bs

/-- Comparison of two `degree_name` values under `ORDER BY degree_name`:
lexicographic on present values, with `NULL` sorting last (the PostgreSQL
default for `ASC`). -/
def degreeNameLeB : Option String → Option String → Bool
  | some x, some y => charListLe x.data y.data
  | some _, none => true
  | none, some _ => false
  | none, none => true

/-- The row order produced by `ORDER BY degree_name` (ascending). -/
def degreeLe (a b : ResultRow) : Prop :=
  degreeNameLeB a.degree_name b.degree_name = true

instance : DecidableRel degreeLe := fun a b =>
  inferInstanceAs (Decidable (degreeNameLeB a.degree_name b.degree_name = true))

theorem charListLe_total : ∀ as bs, charListLe as bs = true ∨ charListLe bs as = true
  | [], _ => Or.inl rfl
  | _ :: _, [] => Or.inr rfl
  | a :: as, b :: bs => by
    unfold charListLe
    rcases Nat.lt_trichotomy a.toNat b.toNat with h | h | h
    · exact Or.inl (by simp [h])
    · have h1 : ¬ a.toNat < b.toNat := by omega
      have h2 : ¬ b.toNat < a.toNat := by omega
      simpa [h1, h2] using charListLe_total as bs
    · exact Or.inr (by simp [h])

theorem charListLe_trans : ∀ as bs cs, charListLe as bs = true →
    charListLe bs cs = true → charListLe as cs = true
  | [], _, _ => fun _ _ => rfl
  | _ :: _, [], _ => fun h _ => by simp [charListLe] at h
  | _ :: _, _ :: _, [] => fun _ h => by simp [charListLe] at h
  | a :: as, b :: bs, c :: cs => fun h1 h2 => by
    unfold charListLe at h1 h2 ⊢
    by_cases hab : a.toNat < b.toNat
    · by_cases hbc : b.toNat < c.toNat
      · have hac : a.toNat < c.toNat := by omega
        simp [hac]
      · by_cases hcb : c.toNat < b.toNat
        · simp [hbc, hcb] at h2
        · have hac : a.toNat < c.toNat := by omega
          simp [hac]
    · by_cases hba : b.toNat < a.toNat
      · simp [hab, hba] at h1
      · by_cases hbc : b.toNat < c.toNat
        · have hac : a.toNat < c.toNat := by omega
          simp [hac]
        · by_cases hcb : c.toNat < b.toNat
          · simp [hbc, hcb] at h2
          · have hac : ¬ a.toNat < c.toNat := by omega
            have hca : ¬ c.toNat < a.toNat := by omega
            simp only [if_neg hab, if_neg hba] at h1
            simp only [if_neg hbc, if_neg hcb] at h2
            simp only [if_neg hac, if_neg hca]
            exact charListLe_trans as bs cs h1 h2

theorem degreeNameLeB_total : ∀ a b : Option String,
    degreeNameLeB a b = true ∨ degreeNameLeB b a = true
  | none, none => Or.inl rfl
  | none, some _ => Or.inr rfl
  | some _, none => Or.inl rfl
  | some x, some y => charListLe_total x.data y.data

theorem degreeNameLeB_trans : ∀ a b c : Option String, degreeNameLeB a b = true →
    degreeNameLeB b c = true → degreeNameLeB a c = true
  | none, none, _ => fun _ h2 => h2
  | none, some _, _ => fun h1 _ => by simp [degreeNameLeB] at h1
  | some _, none, none => fun _ _ => rfl
  | some _, none, some _ => fun _ h2 => by simp [degreeNameLeB] at h2
  | some _, some _, none => fun _ _ => rfl
  | some x, some y, some z => fun h1 h2 => charListLe_trans x.data y.data z.data h1 h2

instance : IsTotal ResultRow degreeLe :=
  ⟨fun a b => degreeNameLeB_total a.degree_name b.degree_name⟩

instance : IsTrans ResultRow degreeLe :=
  ⟨fun _ _ _ h1 h2 => degreeNameLeB_trans _ _ _ h1 h2⟩

/-- Evaluation of `searchSql` on a table with the bound parameter. -/
def runQuery (table : List StoredRow) (param : String) : List ResultRow :=
  List.insertionSort degreeLe
    ((table.filter (fun r => r.course_code == param)).map projectRow)

/-- The database as seen through `searchSql`: every query resolves with the
rows computed by `runQuery` from the first bound parameter. -/
def tableDb (table : List StoredRow) : String → List String → DbOutcome :=
  fun _ ps => .ok (runQuery table (ps.headD ""))

/-- The `/search` endpoint composed with the SQL semantics over a table. -/
def searchService (table : List StoredRow) (courseCode : Option String) :
    HandlerResult :=
  searchHandler courseCode (tableDb table)

/-! ## The client (`script.js`)

`handleSubmit` is modelled as a function from the raw input and the outcome
of the `fetch` call to the text left in the `#status_message` element. -/

/-- The parsed JSON body of a server response, as read by the client. -/
structure FetchData where
  error : String
  results : List ResultRow
deriving DecidableEq, Repr

/-- Outcome of the `fetch` call: a network-level failure (the request never
produced an HTTP response, so the `catch` block runs), or an HTTP response
with a status code and parsed JSON data. -/
inductive FetchOutcome where
  | networkFailure
  | httpResponse (status : Nat) (data : FetchData)

/-- JS `response.ok`: true exactly for status codes 200–299. -/
def responseOk (status : Nat) : Bool := decide (200 ≤ status ∧ status ≤ 299)

def invalidFormatClientMsg : String :=
  "Invalid format. Please enter a department code followed by a course number — for example, \"CNIT 120\" or \"CS 101\"."

def networkErrorMsg : String :=
  "Network error. Could not reach the server. Please try again."

/-- The success status line, e.g. `"2 matches found."`. -/
def matchCountMsg (n : Nat) : String :=
  toString n ++ " match" ++ (if n == 1 then "" else "es") ++ " found."

/-- The text left in `#status_message` by `handleSubmit` in `script.js`. -/
def handleSubmitStatus (userInput : String) (outcome : FetchOutcome) : String :=
  if !useRegex userInput then invalidFormatClientMsg
  else
    match outcome with
    | .networkFailure => networkErrorMsg
    | .httpResponse status data =>
      if !responseOk status then "Error: " ++ data.error
      else matchCountMsg data.results.length

example : useRegex "CNIT 120" = true := by decide
example : useRegex " CS 101 " = true := by decide
example : useRegex "MATH 80A" = true := by decide
example : useRegex "CS101" = false := by decide
example : useRegex "CNIT-120" = false := by decide
example : useRegex "CNIT 120 X" = false := by decide
example : useRegex "TOOLONG 1" = false := by decide
example : useRegex "CS\t101" = true := by decide
example : useRegexLegacy "CNIT 120 X" = true := by decide
example : useRegexLegacy "CS101" = false := by decide

example :
    searchService [⟨"CNIT 120", some "B", none⟩, ⟨"CNIT 120", some "A", none⟩]
      (some " cnit 120 ") =
      ⟨200, .results [⟨some "A", none⟩, ⟨some "B", none⟩],
        [⟨searchSql, ["CNIT 120"]⟩], []⟩ := by decide

example :
    searchService [⟨"CNIT 120", some "B", none⟩] (some "CS 9") =
      ⟨404, .error noMatchMsg, [⟨searchSql, ["CS 9"]⟩], []⟩ := by decide

example :
    searchHandler (some "CS 9") (fun _ _ => .fail "boom") =
      ⟨500, .error dbFailMsg, [⟨searchSql, ["CS 9"]⟩], ["Query error: boom"]⟩ := by
  decide

/-! ## Uppercasing preserves the character classes of the pattern -/

theorem char_toNat_ofNat {n : Nat} (h : n < 55296) : (Char.ofNat n).toNat = n := by
  unfold Char.ofNat
  rw [dif_pos (Or.inl h : Nat.isValidChar n)]
  rfl

theorem toUpper_toNat (c : Char) :
    (Char.toUpper c).toNat =
      if 97 ≤ c.toNat ∧ c.toNat ≤ 122 then c.toNat - 32 else c.toNat := by
  unfold Char.toUpper
  by_cases hc : 97 ≤ c.toNat ∧ c.toNat ≤ 122
  · rw [if_pos ⟨hc.1, hc.2⟩, if_pos hc]
    exact char_toNat_ofNat (by omega)
  · rw [if_neg, if_neg hc]
    intro h
    exact hc ⟨h.1, h.2⟩

theorem isAsciiLetter_toUpper (c : Char) :
    isAsciiLetter (Char.toUpper c) = isAsciiLetter c := by
  have h := toUpper_toNat c
  unfold isAsciiLetter
  by_cases hc : 97 ≤ c.toNat ∧ c.toNat ≤ 122
  · rw [if_pos hc] at h
    rw [h, decide_eq_decide]
    omega
  · rw [if_neg hc] at h
    rw [h]

theorem isAsciiDigit_toUpper (c : Char) :
    isAsciiDigit (Char.toUpper c) = isAsciiDigit c := by
  have h := toUpper_toNat c
  unfold isAsciiDigit
  by_cases hc : 97 ≤ c.toNat ∧ c.toNat ≤ 122
  · rw [if_pos hc] at h
    rw [h, decide_eq_decide]
    omega
  · rw [if_neg hc] at h
    rw [h]

theorem isJsWhitespace_toUpper (c : Char) :
    isJsWhitespace (Char.toUpper c) = isJsWhitespace c := by
  have h := toUpper_toNat c
  unfold isJsWhitespace jsWhitespaceCodes
  by_cases hc : 97 ≤ c.toNat ∧ c.toNat ≤ 122
  · rw [if_pos hc] at h
    rw [h, decide_eq_decide]
    simp only [List.mem_cons, List.not_mem_nil, or_false]
    omega
  · rw [if_neg hc] at h
    rw [h]

theorem takeWhile_map_toUpper (p : Char → Bool)
    (hp : ∀ c, p (Char.toUpper c) = p c) :
    ∀ cs : List Char,
      (cs.map Char.toUpper).takeWhile p = (cs.takeWhile p).map Char.toUpper
  | [] => rfl
  | c :: cs => by
    simp only [List.map_cons, List.takeWhile_cons, hp c]
    cases hpc : p c <;>
      simp [hpc, takeWhile_map_toUpper p hp cs]

theorem dropWhile_map_toUpper (p : Char → Bool)
    (hp : ∀ c, p (Char.toUpper c) = p c) :
    ∀ cs : List Char,
      (cs.map Char.toUpper).dropWhile p = (cs.dropWhile p).map Char.toUpper
  | [] => rfl
  | c :: cs => by
    simp only [List.map_cons, List.dropWhile_cons, hp c]
    cases hpc : p c <;>
      simp [hpc, dropWhile_map_toUpper p hp cs]

/-- The pattern test is invariant under `toUpperCase`: the three character
classes of the pattern are each closed under ASCII case mapping. -/
theorem courseRegexTest_toUpper (cs : List Char) :
    courseRegexTest (jsToUpperCase cs) = courseRegexTest cs := by
  unfold courseRegexTest jsToUpperCase
  rw [takeWhile_map_toUpper isAsciiLetter isAsciiLetter_toUpper,
    dropWhile_map_toUpper isAsciiLetter isAsciiLetter_toUpper,
    List.length_map]
  congr 1
  cases cs.dropWhile isAsciiLetter with
  | nil => rfl
  | cons w rest2 =>
    simp only [List.map_cons, isJsWhitespace_toUpper,
      takeWhile_map_toUpper isAsciiDigit isAsciiDigit_toUpper,
      dropWhile_map_toUpper isAsciiDigit isAsciiDigit_toUpper, List.length_map]
    congr 1
    cases rest2.dropWhile isAsciiDigit with
    | nil => rfl
    | cons c rest3 =>
      cases rest3 with
      | nil => simp [isAsciiLetter_toUpper]
      | cons _ _ => simp

/-! ## The declarative shape of a valid course code

`SpecShape` restates the validated shape declaratively, as the spec words
it: 2–4 letters, one separator character, 1–4 digits, an optional single
trailing letter, anchored at both ends.  `SpecShape` takes the separator
class from the code (`\s`); `SpecShapeOneSpace` takes it from the spec's
words (exactly one space, U+0020). -/

def SpecShape (cs : List Char) : Prop :=
  ∃ letters sep digits suffix,
    cs = letters ++ sep :: (digits ++ suffix) ∧
    2 ≤ List.length letters ∧ List.length letters ≤ 4 ∧
    (∀ c ∈ letters, isAsciiLetter c = true) ∧
    isJsWhitespace sep = true ∧
    1 ≤ List.length digits ∧ List.length digits ≤ 4 ∧
    (∀ c ∈ digits, isAsciiDigit c = true) ∧
    (suffix = [] ∨ ∃ c, suffix = [c] ∧ isAsciiLetter c = true)

def SpecShapeOneSpace (cs : List Char) : Prop :=
  ∃ letters digits suffix,
    cs = letters ++ ' ' :: (digits ++ suffix) ∧
    2 ≤ List.length letters ∧ List.length letters ≤ 4 ∧
    (∀ c ∈ letters, isAsciiLetter c = true) ∧
    1 ≤ List.length digits ∧ List.length digits ≤ 4 ∧
    (∀ c ∈ digits, isAsciiDigit c = true) ∧
    (suffix = [] ∨ ∃ c, suffix = [c] ∧ isAsciiLetter c = true)

theorem not_letter_of_ws {c : Char} (h : isJsWhitespace c = true) :
    isAsciiLetter c = false := by
  unfold isJsWhitespace jsWhitespaceCodes at h
  unfold isAsciiLetter
  rw [decide_eq_true_eq] at h
  rw [decide_eq_false_iff_not]
  simp only [List.mem_cons, List.not_mem_nil, or_false] at h
  omega

theorem not_digit_of_letter {c : Char} (h : isAsciiLetter c = true) :
    isAsciiDigit c = false := by
  unfold isAsciiLetter at h
  unfold isAsciiDigit
  rw [decide_eq_true_eq] at h
  rw [decide_eq_false_iff_not]
  omega

theorem mem_takeWhile_sat {p : Char → Bool} {cs : List Char} :
    ∀ c ∈ cs.takeWhile p, p c = true := by
  intro c hc
  have h := List.all_takeWhile (p := p) (l := cs)
  rw [List.all_eq_true] at h
  exact h c hc

/-- The executable pattern test agrees with the declarative shape. -/
theorem courseRegexTest_iff_specShape (cs : List Char) :
    courseRegexTest cs = true ↔ SpecShape cs := by
  constructor
  · intro h
    unfold courseRegexTest at h
    cases hR : cs.dropWhile isAsciiLetter with
    | nil => rw [hR] at h; simp at h
    | cons w rest2 =>
      rw [hR] at h
      simp only [Bool.and_eq_true, decide_eq_true_eq] at h
      obtain ⟨⟨hL2, hL4⟩, hw, ⟨hD1, hD4⟩, hrest3⟩ := h
      refine ⟨cs.takeWhile isAsciiLetter, w, rest2.takeWhile isAsciiDigit,
        rest2.dropWhile isAsciiDigit, ?_, hL2, hL4, mem_takeWhile_sat, hw,
        hD1, hD4, mem_takeWhile_sat, ?_⟩
      · have hsplit := List.takeWhile_append_dropWhile (p := isAsciiLetter) (l := cs)
        rw [hR] at hsplit
        rw [List.takeWhile_append_dropWhile]
        exact hsplit.symm
      · cases hR3 : rest2.dropWhile isAsciiDigit with
        | nil => exact Or.inl rfl
        | cons c rest3 =>
          rw [hR3] at hrest3
          cases rest3 with
          | nil => exact Or.inr ⟨c, rfl, hrest3⟩
          | cons d rest4 => simp at hrest3
  · rintro ⟨letters, sep, digits, suffix, hcs, hL2, hL4, hLmem, hsep, hD1, hD4,
      hDmem, hsuf⟩
    have hsepL : isAsciiLetter sep = false := not_letter_of_ws hsep
    have htakeL : cs.takeWhile isAsciiLetter = letters := by
      rw [hcs, List.takeWhile_append_of_pos hLmem,
        List.takeWhile_cons_of_neg (by simp [hsepL]), List.append_nil]
    have hdropL : cs.dropWhile isAsciiLetter = sep :: (digits ++ suffix) := by
      rw [hcs, List.dropWhile_append_of_pos hLmem,
        List.dropWhile_cons_of_neg (by simp [hsepL])]
    have htakeD : (digits ++ suffix).takeWhile isAsciiDigit = digits := by
      rcases hsuf with rfl | ⟨c, rfl, hc⟩
      · rw [List.append_nil, List.takeWhile_eq_self_iff.mpr hDmem]
      · rw [List.takeWhile_append_of_pos hDmem,
          List.takeWhile_cons_of_neg (by simp [not_digit_of_letter hc]),
          List.append_nil]
    have hdropD : (digits ++ suffix).dropWhile isAsciiDigit = suffix := by
      rcases hsuf with rfl | ⟨c, rfl, hc⟩
      · rw [List.append_nil, List.dropWhile_eq_nil_iff.mpr]
        intro x hx
        simp [hDmem x hx]
      · rw [List.dropWhile_append_of_pos hDmem,
          List.dropWhile_cons_of_neg (by simp [not_digit_of_letter hc])]
    unfold courseRegexTest
    rw [htakeL, hdropL]
    dsimp only
    rw [htakeD, hdropD]
    simp only [Bool.and_eq_true, decide_eq_true_eq]
    refine ⟨⟨hL2, hL4⟩, hsep, ⟨hD1, hD4⟩, ?_⟩
    rcases hsuf with rfl | ⟨c, rfl, hc⟩
    · rfl
    · exact hc

/-! ## On accepted inputs, ASCII and full-Unicode uppercasing agree

A trimmed string accepted by the validator consists of ASCII letters and
digits and one `\s` character; on those characters the full Unicode case
mapping is exactly the ASCII simple mapping. -/

theorem jsUpperCharFull_eq_toUpper {c : Char}
    (h : isAsciiLetter c = true ∨ isAsciiDigit c = true ∨ isJsWhitespace c = true) :
    jsUpperCharFull c = [Char.toUpper c] := by
  have hne1 : c ≠ 'ſ' := by
    rintro rfl
    rcases h with h | h | h <;> revert h <;> decide
  have hne2 : c ≠ 'ß' := by
    rintro rfl
    rcases h with h | h | h <;> revert h <;> decide
  unfold jsUpperCharFull
  rw [if_neg hne1, if_neg hne2]

theorem jsToUpperCaseFull_eq_map :
    ∀ cs : List Char, (∀ c ∈ cs, jsUpperCharFull c = [Char.toUpper c]) →
      jsToUpperCaseFull cs = jsToUpperCase cs
  | [] => fun _ => rfl
  | c :: cs => fun h => by
    show jsUpperCharFull c ++ jsToUpperCaseFull cs =
      Char.toUpper c :: cs.map Char.toUpper
    rw [h c (List.mem_cons_self c cs), jsToUpperCaseFull_eq_map cs
      (fun d hd => h d (List.mem_cons_of_mem c hd))]
    rfl

/-- On an input the server-side check accepts, the full-Unicode uppercase
of the trimmed value equals its ASCII uppercase, so `normalizeCourseCode`
is faithful to `courseCode.trim().toUpperCase()` on the validated path. -/
theorem jsToUpperCaseFull_eq_of_accepted (s : String)
    (hv : serverAccepts (some s) = true) :
    jsToUpperCaseFull (jsTrim s.data) = jsToUpperCase (jsTrim s.data) := by
  have ht : courseRegexTest (jsTrim s.data) = true := by
    simp only [serverAccepts] at hv
    rw [Bool.and_eq_true] at hv
    exact hv.2
  obtain ⟨letters, sep, digits, suffix, hEq, -, -, hL, hsep, -, -, hD, hsuf⟩ :=
    (courseRegexTest_iff_specShape (jsTrim s.data)).mp ht
  rw [hEq]
  apply jsToUpperCaseFull_eq_map
  intro c hc
  apply jsUpperCharFull_eq_toUpper
  rcases List.mem_append.mp hc with hc | hc
  · exact Or.inl (hL c hc)
  · rcases List.mem_cons.mp hc with rfl | hc
    · exact Or.inr (Or.inr hsep)
    · rcases List.mem_append.mp hc with hc | hc
      · exact Or.inr (Or.inl (hD c hc))
      · rcases hsuf with rfl | ⟨d, rfl, hd⟩
        · simp at hc
        · rw [List.mem_singleton] at hc
          subst hc
          exact Or.inl hd

/-! ## Handler reduction lemmas -/

/-- The client-side and server-side acceptance checks agree on every string:
the extra JS-truthiness guard on the server only excludes the empty string,
which the pattern rejects anyway. -/
theorem useRegex_eq_serverAccepts (s : String) :
    useRegex s = serverAccepts (some s) := by
  simp only [useRegex, serverAccepts]
  by_cases h : s = ""
  · subst h
    rfl
  · have hb : (s == "") = false := beq_eq_false_iff_ne.mpr h
    rw [hb]
    rfl

/-- A request rejected by the validation guard gets the fixed 400 response,
issues no query, and logs nothing. -/
theorem searchHandler_invalid (cc : Option String)
    (db : String → List String → DbOutcome) (hv : serverAccepts cc = false) :
    searchHandler cc db = ⟨400, .error invalidCodeMsg, [], []⟩ := by
  cases cc with
  | none => rfl
  | some s =>
    simp only [serverAccepts] at hv
    simp only [searchHandler]
    cases hb : (s == "") <;> rw [hb] at hv <;>
      cases ht : courseRegexTest (jsTrim s.data) <;> rw [ht] at hv <;> simp_all

/-- A request that passes validation forwards the rows resolved by the
database. -/
theorem searchHandler_ok {s : String} {db : String → List String → DbOutcome}
    {rows : List ResultRow} (hv : serverAccepts (some s) = true)
    (hdb : db searchSql [normalizeCourseCode s] = .ok rows) :
    searchHandler (some s) db =
      if rows.length == 0 then
        ⟨404, .error noMatchMsg, [⟨searchSql, [normalizeCourseCode s]⟩], []⟩
      else
        ⟨200, .results rows, [⟨searchSql, [normalizeCourseCode s]⟩], []⟩ := by
  simp only [serverAccepts] at hv
  rw [Bool.and_eq_true] at hv
  obtain ⟨hb, ht⟩ := hv
  rw [Bool.not_eq_true'] at hb
  simp only [searchHandler]
  rw [hb, ht, hdb]
  simp

/-- A request that passes validation whose query rejects gets the fixed 500
response; the underlying error text goes only to the log. -/
theorem searchHandler_fail {s : String} {db : String → List String → DbOutcome}
    {e : String} (hv : serverAccepts (some s) = true)
    (hdb : db searchSql [normalizeCourseCode s] = .fail e) :
    searchHandler (some s) db =
      ⟨500, .error dbFailMsg, [⟨searchSql, [normalizeCourseCode s]⟩],
        ["Query error: " ++ e]⟩ := by
  simp only [serverAccepts] at hv
  rw [Bool.and_eq_true] at hv
  obtain ⟨hb, ht⟩ := hv
  rw [Bool.not_eq_true'] at hb
  simp only [searchHandler]
  rw [hb, ht, hdb]
  simp

theorem runQuery_length (table : List StoredRow) (param : String) :
    (runQuery table param).length =
      (table.filter fun r => r.course_code == param).length := by
  unfold runQuery
  rw [(List.perm_insertionSort _ _).length_eq, List.length_map]

theorem runQuery_sorted (table : List StoredRow) (param : String) :
    List.Sorted degreeLe (runQuery table param) :=
  List.sorted_insertionSort degreeLe _

/-! ## Claims -/

/-- C1, counterexample: the validator uses `\s`, not a literal space, so the
input `"CS\t101"` (tab separator) is accepted by the code although it does
not have the claimed shape `<2-4 letters><one space><1-4 digits><optional
letter>`. -/
theorem c1_counterexample :
    useRegex "CS\t101" = true ∧ ¬ SpecShapeOneSpace (jsTrim ("CS\t101").data) := by
  constructor
  · decide
  · rintro ⟨letters, digits, suffix, hEq, -, -, -, -, -, -, -⟩
    have hmem : (' ' : Char) ∈ jsTrim ("CS\t101").data := by
      rw [hEq]
      exact List.mem_append_right _ (List.mem_cons_self _ _)
    revert hmem
    decide

/-- C1 (amended: the separator is one whitespace character, `\s`, rather
than exactly one space): for every input string, both the client `useRegex`
and the server-side check trim the input and accept exactly the strings
whose trimmed form is 2–4 letters, one whitespace character, 1–4 digits and
an optional trailing letter, anchored at both ends; the listed examples
behave as stated. -/
theorem c1_validator_shape :
    (∀ s : String, useRegex s = true ↔ SpecShape (jsTrim s.data)) ∧
    (∀ s : String, serverAccepts (some s) = true ↔ SpecShape (jsTrim s.data)) ∧
    useRegex "CNIT 120" = true ∧ useRegex "CS 101" = true ∧
    useRegex "MATH 80A" = true ∧ useRegex " CS 101 " = true ∧
    useRegex "CS101" = false ∧ useRegex "CNIT-120" = false ∧
    useRegex "CNIT 120 X" = false ∧ useRegex "TOOLONG 1" = false := by
  refine ⟨fun s => courseRegexTest_iff_specShape (jsTrim s.data), fun s => ?_,
    by decide, by decide, by decide, by decide, by decide, by decide, by decide,
    by decide⟩
  rw [← useRegex_eq_serverAccepts s]
  exact courseRegexTest_iff_specShape (jsTrim s.data)

/-- C2: a validated request whose query resolves with zero rows gets
exactly the fixed 404 response, and the handler never answers 200 with an
empty results array. -/
theorem c2_no_match_404 (s : String) (cc2 : Option String)
    (db db2 : String → List String → DbOutcome)
    (hv : serverAccepts (some s) = true)
    (hdb : db searchSql [normalizeCourseCode s] = .ok [])
    (h200 : (searchHandler cc2 db2).status = 200) :
    searchHandler (some s) db =
      ⟨404, .error noMatchMsg, [⟨searchSql, [normalizeCourseCode s]⟩], []⟩ ∧
    (searchHandler cc2 db2).body ≠ RespBody.results [] := by
  constructor
  · rw [searchHandler_ok hv hdb]
    rfl
  · cases cc2 with
    | none => simp [searchHandler] at h200
    | some s2 =>
      by_cases hv2 : serverAccepts (some s2) = true
      · cases hdb2 : db2 searchSql [normalizeCourseCode s2] with
        | ok rows =>
          rw [searchHandler_ok hv2 hdb2] at h200 ⊢
          by_cases hz : (rows.length == 0) = true
          · rw [if_pos hz] at h200
            simp at h200
          · rw [if_neg hz] at h200 ⊢
            intro hbody
            apply hz
            simp only [RespBody.results.injEq] at hbody
            simp [hbody]
        | fail e =>
          rw [searchHandler_fail hv2 hdb2] at h200
          simp at h200
      · rw [searchHandler_invalid (some s2) db2 (Bool.not_eq_true _ ▸ hv2)] at h200
        simp at h200

/-- C2 witness. -/
theorem c2_witness :
    searchHandler (some "CNIT 120") (fun _ _ => DbOutcome.ok []) =
      ⟨404, .error noMatchMsg, [⟨searchSql, [normalizeCourseCode "CNIT 120"]⟩], []⟩ ∧
    (searchHandler (some "CS 1")
        (fun _ _ => DbOutcome.ok [⟨some "Degree", none⟩])).body ≠
      RespBody.results [] :=
  c2_no_match_404 "CNIT 120" (some "CS 1") (fun _ _ => DbOutcome.ok [])
    (fun _ _ => DbOutcome.ok [⟨some "Degree", none⟩]) (by decide) rfl (by decide)

/-- C3: a validated request over a table with `N ≥ 1` matching rows gets a
200 response whose body holds exactly the query result: `N` entries,
sorted ascending by degree name. -/
theorem c3_matches_200_sorted (table : List StoredRow) (s : String)
    (hv : serverAccepts (some s) = true)
    (hn : 1 ≤ (table.filter fun r => r.course_code == normalizeCourseCode s).length) :
    (searchService table (some s)).status = 200 ∧
    (searchService table (some s)).body =
      .results (runQuery table (normalizeCourseCode s)) ∧
    (runQuery table (normalizeCourseCode s)).length =
      (table.filter fun r => r.course_code == normalizeCourseCode s).length ∧
    List.Sorted degreeLe (runQuery table (normalizeCourseCode s)) := by
  have hlen := runQuery_length table (normalizeCourseCode s)
  have hz : ((runQuery table (normalizeCourseCode s)).length == 0) = false := by
    rw [beq_eq_false_iff_ne, hlen]
    omega
  have hdb : tableDb table searchSql [normalizeCourseCode s] =
      .ok (runQuery table (normalizeCourseCode s)) := rfl
  unfold searchService
  rw [searchHandler_ok hv hdb, hz]
  exact ⟨rfl, rfl, hlen, runQuery_sorted table (normalizeCourseCode s)⟩

/-- C3 witness: two stored rows for CNIT 120, queried as `"cnit 120"`. -/
theorem c3_witness :
    (searchService [⟨"CNIT 120", some "B", none⟩, ⟨"CNIT 120", some "A", none⟩]
        (some "cnit 120")).status = 200 ∧
    (searchService [⟨"CNIT 120", some "B", none⟩, ⟨"CNIT 120", some "A", none⟩]
        (some "cnit 120")).body =
      .results (runQuery [⟨"CNIT 120", some "B", none⟩, ⟨"CNIT 120", some "A", none⟩]
        (normalizeCourseCode "cnit 120")) ∧
    (runQuery [⟨"CNIT 120", some "B", none⟩, ⟨"CNIT 120", some "A", none⟩]
        (normalizeCourseCode "cnit 120")).length =
      (([⟨"CNIT 120", some "B", none⟩, ⟨"CNIT 120", some "A", none⟩] :
          List StoredRow).filter
        fun r => r.course_code == normalizeCourseCode "cnit 120").length ∧
    List.Sorted degreeLe
      (runQuery [⟨"CNIT 120", some "B", none⟩, ⟨"CNIT 120", some "A", none⟩]
        (normalizeCourseCode "cnit 120")) :=
  c3_matches_200_sorted [⟨"CNIT 120", some "B", none⟩, ⟨"CNIT 120", some "A", none⟩]
    "cnit 120" (by decide) (by decide)

/-- C4: a malformed JSON payload is rejected with 400 by the body-parsing
middleware before the handler runs, and a parsed payload missing the
`courseCode` field gets the handler's fixed 400 body; neither path gives a
500 or touches the database. -/
theorem c4_malformed_or_missing_400 :
    (∀ db : String → List String → DbOutcome,
      (processSearchRequest .malformed db).status = 400 ∧
      (processSearchRequest .malformed db).status ≠ 500 ∧
      (processSearchRequest .malformed db).queries = []) ∧
    (∀ db : String → List String → DbOutcome,
      (processSearchRequest (.parsed none) db).status = 400 ∧
      (processSearchRequest (.parsed none) db).body = .error invalidCodeMsg ∧
      (processSearchRequest (.parsed none) db).status ≠ 500) :=
  ⟨fun _ => ⟨rfl, by intro h; simp [processSearchRequest] at h, rfl⟩,
    fun _ => ⟨rfl, rfl, by intro h; simp [processSearchRequest, searchHandler] at h⟩⟩

/-- C5: when the database promise rejects on a validated request, the
response is exactly 500 with the fixed generic body; the underlying error
text appears only in the server-side log, never in the response. -/
theorem c5_db_failure_500 (s : String) (db : String → List String → DbOutcome)
    (e : String) (hv : serverAccepts (some s) = true)
    (hdb : db searchSql [normalizeCourseCode s] = .fail e) :
    searchHandler (some s) db =
      ⟨500, .error dbFailMsg, [⟨searchSql, [normalizeCourseCode s]⟩],
        ["Query error: " ++ e]⟩ :=
  searchHandler_fail hv hdb

/-- C5 witness. -/
theorem c5_witness :
    searchHandler (some "CNIT 120") (fun _ _ => DbOutcome.fail "connection terminated") =
      ⟨500, .error dbFailMsg, [⟨searchSql, [normalizeCourseCode "CNIT 120"]⟩],
        ["Query error: " ++ "connection terminated"]⟩ :=
  c5_db_failure_500 "CNIT 120" (fun _ _ => DbOutcome.fail "connection terminated")
    "connection terminated" (by decide) rfl

/-- C6, counterexample: under the full-Unicode `toUpperCase` the server
actually calls, the inputs `"ſs 101"` (with U+017F LATIN SMALL LETTER
LONG S) and `"ss 101"` are equal after trimming and uppercasing — both
become `"SS 101"` — yet the handler rejects the first with 400 (U+017F
does not match `[A-Za-z]`, so no query is issued) and answers the second
from the database: the responses differ, so the claim over all
trim+uppercase-equal pairs is false. -/
theorem c6_counterexample :
    jsToUpperCaseFull (jsTrim ("ſs 101").data) =
      jsToUpperCaseFull (jsTrim ("ss 101").data) ∧
    searchHandler (some "ſs 101")
        (fun _ _ => DbOutcome.ok [⟨some "Degree", none⟩]) ≠
      searchHandler (some "ss 101")
        (fun _ _ => DbOutcome.ok [⟨some "Degree", none⟩]) := by
  decide

/-- C6 (amended: equality after trimming and ASCII uppercasing — the full
Unicode case mapping identifies more strings, on which the claim fails, as
the counterexample shows): two inputs that agree after trimming and ASCII
uppercasing produce the same behaviour of the handler — the same
validation outcome, the same issued query, and the same response.  On
every input the validator accepts, ASCII uppercasing coincides with the
full JS mapping (`jsToUpperCaseFull_eq_of_accepted`), so along the
database path the two normalizations agree. -/
theorem c6_normalized_inputs_equal (s1 s2 : String)
    (db : String → List String → DbOutcome)
    (h : normalizeCourseCode s1 = normalizeCourseCode s2) :
    searchHandler (some s1) db = searchHandler (some s2) db := by
  have hdata : jsToUpperCase (jsTrim s1.data) = jsToUpperCase (jsTrim s2.data) :=
    congrArg String.data h
  have htest : courseRegexTest (jsTrim s1.data) = courseRegexTest (jsTrim s2.data) := by
    rw [← courseRegexTest_toUpper (jsTrim s1.data),
      ← courseRegexTest_toUpper (jsTrim s2.data), hdata]
  by_cases ht : courseRegexTest (jsTrim s1.data) = true
  · have ht2 : courseRegexTest (jsTrim s2.data) = true := htest ▸ ht
    have hs1 : (s1 == "") = false := by
      rw [beq_eq_false_iff_ne]
      rintro rfl
      exact absurd ht (by decide)
    have hs2 : (s2 == "") = false := by
      rw [beq_eq_false_iff_ne]
      rintro rfl
      exact absurd ht2 (by decide)
    simp only [searchHandler]
    rw [hs1, hs2, ht, ht2, h]
  · have ht1 : courseRegexTest (jsTrim s1.data) = false := by
      simpa using ht
    have ht2 : courseRegexTest (jsTrim s2.data) = false := htest ▸ ht1
    simp only [searchHandler]
    rw [ht1, ht2]
    simp

/-- C6 witness: `"cnit 120"` and `" CNIT 120 "` normalize identically. -/
theorem c6_witness :
    searchHandler (some "cnit 120") (fun _ _ => DbOutcome.ok []) =
      searchHandler (some " CNIT 120 ") (fun _ _ => DbOutcome.ok []) :=
  c6_normalized_inputs_equal "cnit 120" " CNIT 120 "
    (fun _ _ => DbOutcome.ok []) (by decide)

/-- C7, counterexample: the legacy client script's `useRegex` tests the
unanchored pattern `/[A-Za-z0-9]+ [A-Za-z0-9]+/i`, so it accepts
`"CNIT 120 X"`, which the server-side check rejects — the two validators
are not equivalent. -/
theorem c7_counterexample :
    useRegexLegacy "CNIT 120 X" = true ∧
    serverAccepts (some "CNIT 120 X") = false := by
  decide

/-- C7 (amended to the current client scripts: the legacy script's copy is
not equivalent, as witnessed above): the `useRegex` of the current client
scripts accepts a string exactly when the server-side check accepts it. -/
theorem c7_current_client_equals_server :
    ∀ s : String, useRegex s = serverAccepts (some s) :=
  useRegex_eq_serverAccepts

/-- C8: every query the handler issues has the fixed SQL text `searchSql`,
independent of the input — the user value enters only as the bound
parameter vector of the query. -/
theorem c8_parameterized_query (cc : Option String)
    (db : String → List String → DbOutcome) (q : SqlQuery)
    (hq : q ∈ (searchHandler cc db).queries) :
    q.text = searchSql ∧ q.params = [normalizeCourseCode (cc.getD "")] := by
  cases cc with
  | none => simp [searchHandler] at hq
  | some s =>
    by_cases hv : serverAccepts (some s) = true
    · cases hdb : db searchSql [normalizeCourseCode s] with
      | ok rows =>
        rw [searchHandler_ok hv hdb] at hq
        by_cases hz : (rows.length == 0) = true
        · rw [if_pos hz] at hq
          simp at hq
          subst hq
          exact ⟨rfl, rfl⟩
        · rw [if_neg hz] at hq
          simp at hq
          subst hq
          exact ⟨rfl, rfl⟩
      | fail e =>
        rw [searchHandler_fail hv hdb] at hq
        simp at hq
        subst hq
        exact ⟨rfl, rfl⟩
    · rw [searchHandler_invalid (some s) db (by simpa using hv)] at hq
      simp at hq

/-- C8 witness. -/
theorem c8_witness :
    (⟨searchSql, [normalizeCourseCode "CS 1"]⟩ : SqlQuery).text = searchSql ∧
    (⟨searchSql, [normalizeCourseCode "CS 1"]⟩ : SqlQuery).params =
      [normalizeCourseCode ((some "CS 1").getD "")] :=
  c8_parameterized_query (some "CS 1") (fun _ _ => DbOutcome.ok [])
    ⟨searchSql, [normalizeCourseCode "CS 1"]⟩ (by decide)

/-- C9: on the client, a network-level fetch failure and a non-ok HTTP
response are handled by distinct branches with distinct messages — the
fixed network-error text versus `"Error: "` followed by the server-supplied
error, and the latter can never equal the former. -/
theorem c9_distinct_failure_messages (input : String) (status : Nat)
    (data : FetchData) (e : String) (hv : useRegex input = true)
    (hok : responseOk status = false) :
    handleSubmitStatus input .networkFailure = networkErrorMsg ∧
    handleSubmitStatus input (.httpResponse status data) = "Error: " ++ data.error ∧
    "Error: " ++ e ≠ networkErrorMsg := by
  refine ⟨?_, ?_, ?_⟩
  · simp [handleSubmitStatus, hv]
  · simp [handleSubmitStatus, hv, hok]
  · intro heq
    have h1 : (("Error: " ++ e).data).head? = some 'E' := by
      rw [String.data_append]
      rfl
    rw [heq] at h1
    exact absurd h1 (by decide)

/-- C9 witness. -/
theorem c9_witness :
    handleSubmitStatus "CNIT 120" .networkFailure = networkErrorMsg ∧
    handleSubmitStatus "CNIT 120" (.httpResponse 404 ⟨noMatchMsg, []⟩) =
      "Error: " ++ (⟨noMatchMsg, []⟩ : FetchData).error ∧
    "Error: " ++ noMatchMsg ≠ networkErrorMsg :=
  c9_distinct_failure_messages "CNIT 120" 404 ⟨noMatchMsg, []⟩ noMatchMsg
    (by decide) (by decide)

/-- C10: a request whose `courseCode` is missing, falsy, or fails the
pattern is answered 400 immediately: no query is issued and nothing is
logged, so the connection pool is never touched. -/
theorem c10_invalid_rejected_before_query (cc : Option String)
    (db : String → List String → DbOutcome) (hv : serverAccepts cc = false) :
    searchHandler cc db = ⟨400, .error invalidCodeMsg, [], []⟩ :=
  searchHandler_invalid cc db hv

/-- C10 witness. -/
theorem c10_witness :
    searchHandler (some "CS101") (fun _ _ => DbOutcome.ok [⟨some "Degree", none⟩]) =
      ⟨400, .error invalidCodeMsg, [], []⟩ :=
  c10_invalid_rejected_before_query (some "CS101")
    (fun _ _ => DbOutcome.ok [⟨some "Degree", none⟩]) (by decide)

end CourseSearch
